import Mathlib

/-!
Shallow embedding of `remotezip.py` (python-remotezip): the `PartialBuffer`
windowed buffer, the `RemoteIO` virtual-file layer (embedded here as
`RemoteIOModel`), the `RemoteFetcher` suffix-range fallback, and the
`RemoteZip._get_position_to_size` map construction.

Bytes are modelled as `List Nat`.  Exceptions are modelled by the `Err`
inductive; every Python method that can raise returns its result together
with the post-state, since Python mutates state before raising and callers
(notably `RemoteIO.seek`) observe that mutated state.
-/

/-- Errors of the library.  `crash` stands for a Python-level exception that
is not one of the library's own classes (`TypeError`, `KeyError`,
`AttributeError`). -/
inductive Err where
  | outOfBound (msg : String)
  | rangeNotSupported (msg : String)
  | remoteIOError (msg : String)
  | remoteZipError (msg : String)
  | crash
  deriving Repr, DecidableEq

/-- Semantics of the underlying byte source (`io.BytesIO` or a raw response
stream): `read(n)` starting from `cursor` returns `min n avail` bytes for
`n ≥ 0` and all remaining bytes for negative `n` (CPython `read` semantics),
advancing the cursor by the number of bytes returned. -/
def rawRead (data : List Nat) (cursor : Nat) (n : Int) : List Nat × Nat :=
  let avail := data.length - cursor
  let k := if n < 0 then avail else min n.toNat avail
  ((data.drop cursor).take k, cursor + k)

/-- Embeds `remotezip.PartialBuffer`.  `data` is the byte content reachable
from the underlying source, `cursor` the underlying source's own position
(`self.buffer.tell()`); `offset`, `size`, `position`, `stream` mirror
`_offset`, `_size`, `_position`, `_stream`.  A freshly constructed buffer has
`position = offset` and `cursor = 0`. -/
structure PartialBuffer where
  data : List Nat
  offset : Int
  size : Int
  position : Int
  cursor : Nat
  stream : Bool
  deriving Repr, DecidableEq

/-- Embeds `PartialBuffer.tell`. -/
def PartialBuffer.tell (pb : PartialBuffer) : Int := pb.position

/-- Embeds `PartialBuffer.read`: `size == 0` means read to the end of the
window; afterwards `_position = _offset + buffer.tell()`. -/
def PartialBuffer.read (pb : PartialBuffer) (size : Int) : List Nat × PartialBuffer :=
  let size := if size = 0 then pb.offset + pb.size - pb.position else size
  let r := rawRead pb.data pb.cursor size
  (r.1, { pb with cursor := r.2, position := pb.offset + r.2 })

/-- Embeds `PartialBuffer.seek`.  The logical position is updated first;
then the relative position is bound-checked; for `stream=True` the skip is
performed by reading from the underlying source, for `stream=False` the
underlying source is seeked.  On failure the (already updated) post-state is
returned together with the error, matching Python's mutate-then-raise. -/
def PartialBuffer.seek (pb : PartialBuffer) (off : Int) (whence : Nat) :
    Except Err Int × PartialBuffer :=
  let position :=
    if whence = 2 then pb.size + pb.offset + off
    else if whence = 0 then off
    else pb.position + off
  let pb := { pb with position := position }
  let relative_position := position - pb.offset
  if relative_position < 0 ∨ relative_position ≥ pb.size then
    (Except.error (Err.outOfBound "Position out of buffer bound"), pb)
  else if pb.stream then
    let buff_pos := pb.cursor
    if relative_position < (buff_pos : Int) then
      (Except.error (Err.outOfBound "Negative seek not supported"), pb)
    else
      let skip_bytes := relative_position - (buff_pos : Int)
      if skip_bytes = 0 then (Except.ok position, pb)
      else (Except.ok position, { pb with cursor := (rawRead pb.data pb.cursor skip_bytes).2 })
  else
    (Except.ok position, { pb with cursor := relative_position.toNat })

/-- Embeds the state of `remotezip.RemoteIO` (named `RemoteIOModel` here).
`member_position_to_size` is the Python dict, represented as an association
list with distinct keys; `buffer = none` before the first bootstrap seek. -/
structure RemoteIOModel where
  buffer : Option PartialBuffer
  file_size : Option Int
  seek_succeeded : Bool
  member_position_to_size : Option (List (Int × Int))
  last_member_pos : Option Int
  initial_buffer_size : Int
  deriving Repr, DecidableEq

/-- Embeds `RemoteIO.seek`.  The fetch function is passed explicitly (it is
`self._fetch_fun` in the source).  If `whence == 2` and the file size is
unknown, a suffix fetch of `initial_buffer_size` bytes bootstraps the buffer
and the file size (`len(buffer) + buffer.tell()`).  The delegated buffer
seek's `OutOfBound` is caught: `seek_succeeded` is set to `False` and the
updated `tell()` is returned. -/
def RemoteIOModel.seek (rio : RemoteIOModel)
    (fetch : Int × Option Int → Bool → PartialBuffer) (off : Int) (whence : Nat) :
    Except Err Int × RemoteIOModel :=
  let rio :=
    if whence = 2 ∧ rio.file_size = none then
      let buf := fetch (-rio.initial_buffer_size, none) false
      { rio with buffer := some buf, file_size := some (buf.size + buf.tell) }
    else rio
  match rio.buffer with
  | none => (Except.error Err.crash, rio)
  | some pb =>
    match pb.seek off whence with
    | (Except.ok pos, pb2) =>
      (Except.ok pos, { rio with buffer := some pb2, seek_succeeded := true })
    | (Except.error _, pb2) =>
      (Except.ok pb2.tell, { rio with buffer := some pb2, seek_succeeded := false })

/-- Embeds `RemoteIO.tell`. -/
def RemoteIOModel.tell (rio : RemoteIOModel) : Option Int :=
  rio.buffer.map PartialBuffer.tell

/-- Embeds `RemoteIO.read`.  When the last seek failed, a new buffer is
fetched; its range depends on whether the member map is installed, whether
the position is a member start, and on `self._last_member_pos` — note the
source's Python truthiness test `if self._last_member_pos and ...`, which
treats `0` like `None`.  A missing dict key in the mid-member branch would be
a Python `KeyError` (`Err.crash`), not `OutOfBound`. -/
def RemoteIOModel.read (rio : RemoteIOModel)
    (fetch : Int × Option Int → Bool → PartialBuffer) (size : Int) :
    Except Err (List Nat) × RemoteIOModel :=
  match rio.buffer with
  | none => (Except.error Err.crash, rio)
  | some pb =>
    let position := pb.tell
    match (if size = 0 then rio.file_size.map (fun fs => fs - position) else some size) with
    | none => (Except.error Err.crash, rio)
    | some size =>
      if rio.seek_succeeded then
        let r := pb.read size
        (Except.ok r.1, { rio with buffer := some r.2 })
      else
        let decision : Except Err (Int × Bool × Option Int) :=
          match rio.member_position_to_size with
          | none => Except.ok (size, false, rio.last_member_pos)
          | some m =>
            match m.lookup position with
            | some s => Except.ok (s, true, some position)
            | none =>
              match rio.last_member_pos with
              | some lmp =>
                if lmp ≠ 0 ∧ lmp < position then
                  match m.lookup lmp with
                  | some s0 => Except.ok (s0 - (position - lmp), true, rio.last_member_pos)
                  | none => Except.error Err.crash
                else
                  Except.error
                    (Err.outOfBound "Attempt to seek outside boundary of current zip member")
              | none =>
                Except.error
                  (Err.outOfBound "Attempt to seek outside boundary of current zip member")
        match decision with
        | Except.error e => (Except.error e, rio)
        | Except.ok (fetch_size, stream, lmp) =>
          let buf := fetch (position, some (position + fetch_size - 1)) stream
          let r := buf.read size
          (Except.ok r.1,
           { rio with seek_succeeded := true, buffer := some r.2, last_member_pos := lmp })

/-- Embeds `remotezip.pairwise` (`pairwise('ABCDEFG') --> AB BC CD ...`). -/
def pairwise (l : List Int) : List (Int × Int) := l.zip l.tail

/-- Embeds `RemoteZip._get_position_to_size`: sort the member header offsets
ascending, append the central-directory start offset, map each offset to the
distance to the next.  `insertionSort` computes the same ascending
rearrangement as Python's `list.sort`.  The resulting association list has
distinct keys whenever the offsets are distinct, in which case it coincides
with the Python dict comprehension. -/
def get_position_to_size (header_offsets : List Int) (start_dir : Int) : List (Int × Int) :=
  if header_offsets = [] then []
  else
    let ilist := header_offsets.insertionSort (· ≤ ·) ++ [start_dir]
    (pairwise ilist).map (fun ab => (ab.1, ab.2 - ab.1))

/-- Embeds `RemoteFetcher.get_file_size`: the `Content-Length` of a HEAD
response, or the generic `RemoteZipError` when the header is missing. -/
def get_file_size (headContentLength : Option Int) : Except Err Int :=
  match headContentLength with
  | some n => Except.ok n
  | none => Except.error (Err.remoteZipError "Cannot get file size: Content-Length header missing")

/-- Embeds `RemoteFetcher.fetch`.  `server` stands for `self._request`
followed by `parse_range_header`: it maps the requested range to the parsed
`Content-Range` bounds and the body (or a transport / range error).  When the
range is a suffix range and `support_suffix_range` is false, the range is
first rewritten using the HEAD `Content-Length`. -/
def RemoteFetcher.fetch (support_suffix_range : Bool) (headContentLength : Option Int)
    (server : Int × Option Int → Except Err (Int × Int × List Nat))
    (data_range : Int × Option Int) (stream : Bool) : Except Err PartialBuffer :=
  let ranged : Except Err (Int × Option Int) :=
    if data_range.1 < 0 ∧ data_range.2 = none ∧ support_suffix_range = false then
      match get_file_size headContentLength with
      | Except.ok size => Except.ok (max 0 (size + data_range.1), some (size - 1))
      | Except.error e => Except.error e
    else Except.ok data_range
  match ranged with
  | Except.error e => Except.error e
  | Except.ok dr =>
    match server dr with
    | Except.error e => Except.error e
    | Except.ok (range_min, range_max, body) =>
      Except.ok { data := body, offset := range_min, size := range_max - range_min + 1,
                  position := range_min, cursor := 0, stream := stream }

/-! ## Helper lemmas -/

/-- The logical position stored after any seek is the computed target,
whether or not the seek succeeded. -/
theorem seek_position (pb : PartialBuffer) (off : Int) (whence : Nat) :
    (pb.seek off whence).2.position =
      (if whence = 2 then pb.size + pb.offset + off
       else if whence = 0 then off else pb.position + off) := by
  simp only [PartialBuffer.seek]
  split_ifs <;> rfl

/-- A seek never changes the window fields nor the data. -/
theorem seek_frame (pb : PartialBuffer) (off : Int) (whence : Nat) :
    (pb.seek off whence).2.offset = pb.offset ∧ (pb.seek off whence).2.size = pb.size ∧
    (pb.seek off whence).2.data = pb.data ∧ (pb.seek off whence).2.stream = pb.stream := by
  simp only [PartialBuffer.seek]
  split_ifs <;> exact ⟨rfl, rfl, rfl, rfl⟩

/-- A read never changes the window fields nor the data. -/
theorem read_frame (pb : PartialBuffer) (n : Int) :
    ((pb.read n).2.offset = pb.offset ∧ (pb.read n).2.size = pb.size ∧
     (pb.read n).2.data = pb.data ∧ (pb.read n).2.stream = pb.stream) :=
  ⟨rfl, rfl, rfl, rfl⟩

/-! ## C6 — PartialBuffer.seek semantics -/

/-- C6: for every PartialBuffer and every `seek(offset, whence)`, the new
logical position is `offset` for whence=0, `position+offset` for whence=1,
and `offset + size + offset_arg` for whence=2; with
`r = position - buffer.offset`, if `r < 0` or `r ≥ size` the seek fails with
OutOfBound while the stored logical position (observable via `tell()`) is
still updated to the computed value; in particular seeking to exactly
`offset + size` always fails. -/
theorem seek_spec (pb : PartialBuffer) (off : Int) (whence : Nat) :
    (whence = 0 → (pb.seek off whence).2.tell = off)
    ∧ (whence = 1 → (pb.seek off whence).2.tell = pb.position + off)
    ∧ (whence = 2 → (pb.seek off whence).2.tell = off + pb.size + pb.offset)
    ∧ ((pb.seek off whence).2.tell - pb.offset < 0 ∨ pb.size ≤ (pb.seek off whence).2.tell - pb.offset →
        (pb.seek off whence).1 = Except.error (Err.outOfBound "Position out of buffer bound"))
    ∧ ((pb.seek off whence).2.tell = pb.offset + pb.size →
        (pb.seek off whence).1 = Except.error (Err.outOfBound "Position out of buffer bound")) := by
  have hpos := seek_position pb off whence
  refine ⟨?_, ?_, ?_, ?_, ?_⟩
  · intro h; rw [PartialBuffer.tell, hpos]; simp [h]
  · intro h; rw [PartialBuffer.tell, hpos]; simp [h]
  · intro h; rw [PartialBuffer.tell, hpos]; simp [h]; ring
  · rw [PartialBuffer.tell, hpos]
    intro hout
    simp only [PartialBuffer.seek]
    split_ifs with h1 h2 h3 <;> first
      | rfl
      | (exfalso; revert hout h1;
         split_ifs <;> intro h1 hout <;> omega)
  · rw [PartialBuffer.tell, hpos]
    intro heq
    simp only [PartialBuffer.seek]
    split_ifs with h1 h2 h3 <;> first
      | rfl
      | (exfalso; revert heq h1;
         split_ifs <;> intro h1 heq <;> omega)

/-- Witness for C6: on the window `[10, 21)` a seek to the end `21 = offset+size`
updates the position yet fails with OutOfBound. -/
theorem seek_spec_witness :
    (PartialBuffer.seek
        { data := [0,0,0,0,1,1,2,2,2,3,3], offset := 10, size := 11,
          position := 10, cursor := 0, stream := false } 21 0).1
      = Except.error (Err.outOfBound "Position out of buffer bound") :=
  (seek_spec _ 21 0).2.2.2.2 (by decide)

/-! ## C7 — stream seek -/

/-- C7: for every `stream=true` PartialBuffer and every in-window seek with
relative target `r = t - offset` and underlying stream cursor `c`: if `r < c`
the seek fails with OutOfBound ("negative seek not supported") leaving the
logical position updated but consuming no data; if `r = c` it returns the
position without consuming data; if `r > c` it consumes and discards exactly
`r - c` bytes from the stream. -/
theorem seek_stream_spec (pb : PartialBuffer) (off : Int) (whence : Nat) (t : Int)
    (hs : pb.stream = true)
    (hlen : pb.data.length = pb.size.toNat)
    (ht : t = if whence = 2 then pb.size + pb.offset + off
              else if whence = 0 then off else pb.position + off)
    (h0 : 0 ≤ t - pb.offset) (h1 : t - pb.offset < pb.size) :
    (pb.seek off whence).2.tell = t
    ∧ (t - pb.offset < (pb.cursor : Int) →
        (pb.seek off whence).1 = Except.error (Err.outOfBound "Negative seek not supported")
        ∧ (pb.seek off whence).2.cursor = pb.cursor)
    ∧ (t - pb.offset = (pb.cursor : Int) →
        (pb.seek off whence).1 = Except.ok t ∧ (pb.seek off whence).2.cursor = pb.cursor)
    ∧ ((pb.cursor : Int) < t - pb.offset →
        (pb.seek off whence).1 = Except.ok t
        ∧ ((pb.seek off whence).2.cursor : Int) = t - pb.offset) := by
  have hpos := seek_position pb off whence
  rw [← ht] at hpos
  refine ⟨by rw [PartialBuffer.tell, hpos], ?_, ?_, ?_⟩ <;>
    intro hc <;>
    simp only [PartialBuffer.seek, rawRead, ← ht, hs] at * <;>
    split_ifs with hb hneg hskip <;>
    simp_all <;>
    omega

/-- Witness for C7: on a fresh stream buffer over `[10, 21)` with cursor 0, a
seek to 17 consumes exactly 7 bytes (cursor becomes 7). -/
theorem seek_stream_spec_witness :
    (PartialBuffer.seek
        { data := [0,0,0,0,1,1,2,2,2,3,3], offset := 10, size := 11,
          position := 10, cursor := 0, stream := true } 17 0).1 = Except.ok 17
    ∧ ((PartialBuffer.seek
        { data := [0,0,0,0,1,1,2,2,2,3,3], offset := 10, size := 11,
          position := 10, cursor := 0, stream := true } 17 0).2.cursor : Int) = 17 - 10 :=
  (seek_stream_spec _ 17 0 17 rfl (by decide) (by decide) (by decide) (by decide)).2.2.2
    (by decide)

/-! ## C8 — PartialBuffer.read -/

/-- Number of bytes a `PartialBuffer.read` call returns (the `k` of
`rawRead` applied to the normalized size); proof-side accessor. -/
def readK (pb : PartialBuffer) (n : Int) : Nat :=
  if (if n = 0 then pb.offset + pb.size - pb.position else n) < 0 then
    pb.data.length - pb.cursor
  else min (if n = 0 then pb.offset + pb.size - pb.position else n).toNat
    (pb.data.length - pb.cursor)

theorem read_eq (pb : PartialBuffer) (n : Int) :
    pb.read n = ((pb.data.drop pb.cursor).take (readK pb n),
      { pb with cursor := pb.cursor + readK pb n,
                position := pb.offset + ((pb.cursor + readK pb n : Nat) : Int) }) := rfl

theorem readK_le (pb : PartialBuffer) (n : Int) :
    readK pb n ≤ pb.data.length - pb.cursor := by
  unfold readK
  split_ifs <;> omega

theorem read_fst_length (pb : PartialBuffer) (n : Int) :
    (pb.read n).1.length = readK pb n := by
  rw [read_eq]
  have := readK_le pb n
  simp [List.length_take, List.length_drop]
  omega

/-- C8: for every PartialBuffer whose position lies within its window (and
whose underlying source holds the window's bytes with its cursor aligned),
`read(n)` returns up to `n` bytes starting at `position` and advances
`position` by exactly the number of bytes returned, with fewer bytes than
requested returned iff the window is exhausted; `read(0)` returns all bytes
from `position` to `offset+size` and leaves `position = offset+size`, so any
subsequent read returns empty. -/
theorem read_spec (pb : PartialBuffer) (n : Int)
    (hlen : pb.data.length = pb.size.toNat)
    (hcur : (pb.cursor : Int) = pb.position - pb.offset)
    (hlo : pb.offset ≤ pb.position) (hhi : pb.position ≤ pb.offset + pb.size) :
    (pb.read n).2.tell = pb.position + ((pb.read n).1.length : Int)
    ∧ (pb.read n).1 = (pb.data.drop (pb.position - pb.offset).toNat).take (pb.read n).1.length
    ∧ (0 < n →
        (((pb.read n).1.length : Int) = min n (pb.offset + pb.size - pb.position)
         ∧ (((pb.read n).1.length : Int) < n ↔ pb.offset + pb.size < pb.position + n)))
    ∧ (n = 0 →
        (((pb.read n).1.length : Int) = pb.offset + pb.size - pb.position
         ∧ (pb.read n).2.tell = pb.offset + pb.size
         ∧ ∀ m : Int, ((pb.read n).2.read m).1 = [])) := by
  have hK := readK_le pb n
  have hL := read_fst_length pb n
  refine ⟨?_, ?_, ?_, ?_⟩
  · rw [hL, read_eq, PartialBuffer.tell]
    push_cast
    omega
  · rw [hL, read_eq]
    have h1 : (pb.position - pb.offset).toNat = pb.cursor := by omega
    rw [h1]
  · intro hn
    rw [hL]
    have h2 : readK pb n = min n.toNat (pb.data.length - pb.cursor) := by
      unfold readK
      simp only [if_neg (by omega : ¬ n = 0)]
      rw [if_neg (by omega : ¬ n < 0)]
    rw [h2]
    constructor
    · omega
    · constructor <;> intro <;> omega
  · intro hn
    subst hn
    have h2 : readK pb 0 = pb.data.length - pb.cursor := by
      have hrfl : readK pb 0 =
          if pb.offset + pb.size - pb.position < 0 then pb.data.length - pb.cursor
          else min (pb.offset + pb.size - pb.position).toNat (pb.data.length - pb.cursor) := rfl
      rw [hrfl, if_neg (by omega : ¬ pb.offset + pb.size - pb.position < 0)]
      omega
    rw [hL, h2]
    refine ⟨by omega, ?_, ?_⟩
    · rw [read_eq, PartialBuffer.tell]
      push_cast
      omega
    · intro m
      have hcur2 : (pb.read 0).2.cursor = pb.data.length := by
        rw [read_eq]
        dsimp only
        omega
      have hdata2 : (pb.read 0).2.data = pb.data := (read_frame pb 0).2.2.1
      rw [read_eq ((pb.read 0).2) m]
      dsimp only
      rw [hcur2, hdata2, List.drop_length, List.take_nil]

/-- Witness for C8: on the window `[10, 21)` positioned at 15, `read 0`
returns the 6 remaining bytes and leaves the position at 21. -/
theorem read_spec_witness :
    ((((PartialBuffer.read
        { data := [0,0,0,0,1,1,2,2,2,3,3], offset := 10, size := 11,
          position := 15, cursor := 5, stream := false } 0).1.length : Int)
      = 10 + 11 - 15)
     ∧ (PartialBuffer.read
        { data := [0,0,0,0,1,1,2,2,2,3,3], offset := 10, size := 11,
          position := 15, cursor := 5, stream := false } 0).2.tell = 10 + 11
     ∧ ∀ m : Int, ((PartialBuffer.read
        { data := [0,0,0,0,1,1,2,2,2,3,3], offset := 10, size := 11,
          position := 15, cursor := 5, stream := false } 0).2.read m).1 = []) :=
  (read_spec
    { data := [0,0,0,0,1,1,2,2,2,3,3], offset := 10, size := 11,
      position := 15, cursor := 5, stream := false } 0
    (by decide) (by decide) (by decide) (by decide)).2.2.2 rfl

/-! ## C5 — PartialBuffer position invariant -/

/-- An operation on a PartialBuffer: the argument forms of `read` and
`seek` (`tell` is pure and does not change state). -/
inductive PBOp where
  | read (n : Int)
  | seek (off : Int) (whence : Nat)

/-- Runs one operation, returning whether it succeeded (Python: did not
raise) together with the post-state (Python state survives a raise). -/
def PBOp.run (op : PBOp) (pb : PartialBuffer) : Bool × PartialBuffer :=
  match op with
  | PBOp.read n => (true, (pb.read n).2)
  | PBOp.seek off whence =>
    match pb.seek off whence with
    | (Except.ok _, pb2) => (true, pb2)
    | (Except.error _, pb2) => (false, pb2)

/-- Runs a sequence of operations; the Bool is true iff every operation
succeeded. -/
def runOps (ops : List PBOp) (pb : PartialBuffer) : Bool × PartialBuffer :=
  match ops with
  | [] => (true, pb)
  | op :: rest =>
    let r := op.run pb
    let s := runOps rest r.2
    (r.1 && s.1, s.2)

/-- Well-formedness of a PartialBuffer state: the underlying source holds
the window's bytes, its cursor is inside them, and the logical position lies
in `[offset, offset+size]`. Freshly constructed buffers satisfy it. -/
def PartialBuffer.Wf (pb : PartialBuffer) : Prop :=
  pb.data.length = pb.size.toNat ∧ pb.cursor ≤ pb.data.length ∧ 0 ≤ pb.size
  ∧ pb.offset ≤ pb.position ∧ pb.position ≤ pb.offset + pb.size

instance (pb : PartialBuffer) : Decidable pb.Wf := by
  unfold PartialBuffer.Wf
  infer_instance

theorem read_wf (pb : PartialBuffer) (n : Int) (h : pb.Wf) : (pb.read n).2.Wf := by
  obtain ⟨h1, h2, h3, h4, h5⟩ := h
  have hK := readK_le pb n
  rw [read_eq]
  unfold PartialBuffer.Wf
  dsimp only
  refine ⟨h1, by omega, h3, by omega, ?_⟩
  push_cast
  omega

theorem seek_ok_wf (pb : PartialBuffer) (off : Int) (whence : Nat) (h : pb.Wf)
    (pos : Int) (pb2 : PartialBuffer) (hok : pb.seek off whence = (Except.ok pos, pb2)) :
    pb2.Wf := by
  obtain ⟨h1, h2, h3, h4, h5⟩ := h
  simp only [PartialBuffer.seek, rawRead] at hok
  split_ifs at hok with hb hstr hneg hskip <;>
    simp only [Prod.mk.injEq] at hok
  all_goals try exact Except.noConfusion hok.1
  all_goals
    obtain ⟨-, rfl⟩ := hok
  all_goals
    unfold PartialBuffer.Wf
  all_goals
    dsimp only
  all_goals
    refine ⟨h1, by omega, h3, by omega, by omega⟩

theorem run_wf (op : PBOp) (pb : PartialBuffer) (h : pb.Wf)
    (hok : (op.run pb).1 = true) : (op.run pb).2.Wf := by
  cases op with
  | read n => exact read_wf pb n h
  | seek off whence =>
    simp only [PBOp.run] at hok ⊢
    cases hres : pb.seek off whence with
    | mk r pb2 =>
      cases r with
      | ok pos =>
        simp only [hres]
        exact seek_ok_wf pb off whence h pos pb2 hres
      | error e =>
        rw [hres] at hok
        simp at hok

theorem runOps_wf (ops : List PBOp) (pb : PartialBuffer) (h : pb.Wf)
    (hok : (runOps ops pb).1 = true) : (runOps ops pb).2.Wf := by
  induction ops generalizing pb with
  | nil => exact h
  | cons op rest ih =>
    simp only [runOps, Bool.and_eq_true] at hok ⊢
    exact ih _ (run_wf op pb h hok.1) hok.2

/-- C5 (amended): for every freshly constructed PartialBuffer, after every
sequence of SUCCESSFUL operations (read, seek, tell) the invariant
`offset ≤ position ≤ offset + size` holds, where `position` is the value
returned by `tell()`.  (As stated the claim is false: a failed seek
deliberately stores an out-of-window position — see the counterexample.) -/
theorem runOps_invariant (ops : List PBOp) (pb : PartialBuffer)
    (hinit : pb.position = pb.offset ∧ pb.cursor = 0
      ∧ pb.data.length = pb.size.toNat ∧ 0 ≤ pb.size)
    (hok : (runOps ops pb).1 = true) :
    (runOps ops pb).2.offset ≤ (runOps ops pb).2.tell
    ∧ (runOps ops pb).2.tell ≤ (runOps ops pb).2.offset + (runOps ops pb).2.size := by
  have h : pb.Wf := by
    unfold PartialBuffer.Wf
    refine ⟨hinit.2.2.1, by omega, hinit.2.2.2, by omega, by omega⟩
  have hwf := runOps_wf ops pb h hok
  exact ⟨hwf.2.2.2.1, hwf.2.2.2.2⟩

/-- Witness for C5 (amended): a successful in-window sequence keeps the
invariant. -/
theorem runOps_invariant_witness :
    (runOps [PBOp.read 5, PBOp.seek 12 0, PBOp.read 0]
        { data := [0,0,0,0,1,1,2,2,2,3,3], offset := 10, size := 11,
          position := 10, cursor := 0, stream := false }).2.offset
      ≤ (runOps [PBOp.read 5, PBOp.seek 12 0, PBOp.read 0]
        { data := [0,0,0,0,1,1,2,2,2,3,3], offset := 10, size := 11,
          position := 10, cursor := 0, stream := false }).2.tell :=
  (runOps_invariant [PBOp.read 5, PBOp.seek 12 0, PBOp.read 0]
    { data := [0,0,0,0,1,1,2,2,2,3,3], offset := 10, size := 11,
      position := 10, cursor := 0, stream := false }
    (by decide) (by decide)).1

/-- Counterexample for C5 as stated: on the freshly constructed window
`[10, 21)`, the single operation `seek(30, 0)` leaves `tell() = 30`, which
violates `position ≤ offset + size = 21`; so the invariant does not hold
after every operation (only after successful ones). -/
theorem runOps_invariant_counterexample :
    (PartialBuffer.Wf
      { data := [0,0,0,0,1,1,2,2,2,3,3], offset := 10, size := 11,
        position := 10, cursor := 0, stream := false })
    ∧ ¬ ((runOps [PBOp.seek 30 0]
        { data := [0,0,0,0,1,1,2,2,2,3,3], offset := 10, size := 11,
          position := 10, cursor := 0, stream := false }).2.tell
      ≤ (runOps [PBOp.seek 30 0]
        { data := [0,0,0,0,1,1,2,2,2,3,3], offset := 10, size := 11,
          position := 10, cursor := 0, stream := false }).2.offset
        + (runOps [PBOp.seek 30 0]
        { data := [0,0,0,0,1,1,2,2,2,3,3], offset := 10, size := 11,
          position := 10, cursor := 0, stream := false }).2.size) := by
  constructor
  · decide
  · decide

/-! ## C1 — the position→size map -/

theorem pairwise_cons₂ (a b : Int) (l : List Int) :
    pairwise (a :: b :: l) = (a, b) :: pairwise (b :: l) := rfl

theorem pts_keys (l : List Int) (s : Int) : ∀ a : Int,
    ((pairwise (a :: (l ++ [s]))).map (fun ab => (ab.1, ab.2 - ab.1))).map Prod.fst
      = a :: l := by
  induction l with
  | nil => intro a; rfl
  | cons b t ih =>
    intro a
    show ((pairwise (a :: b :: (t ++ [s]))).map (fun ab => (ab.1, ab.2 - ab.1))).map Prod.fst
      = a :: b :: t
    rw [pairwise_cons₂, List.map_cons, List.map_cons, ih b]

theorem pts_sum (l : List Int) (s : Int) : ∀ a : Int,
    (((pairwise (a :: (l ++ [s]))).map (fun ab => (ab.1, ab.2 - ab.1))).map Prod.snd).sum
      = s - a := by
  induction l with
  | nil =>
    intro a
    show (s - a) + 0 = s - a
    omega
  | cons b t ih =>
    intro a
    show (((pairwise (a :: b :: (t ++ [s]))).map
        (fun ab => (ab.1, ab.2 - ab.1))).map Prod.snd).sum = s - a
    rw [pairwise_cons₂, List.map_cons, List.map_cons, List.sum_cons, ih b]
    ring

/-- C1: for every central directory (its entries possibly listed out of
order, with pairwise distinct header offsets — a well-formed directory lists
each local header once) with `k` member header offsets and central-directory
start `s`, the map built by `_get_position_to_size` has exactly `k` keys,
all distinct (so the association list coincides with the Python dict), each
equal to some entry's header offset; it is built by sorting the offsets
ascending, appending `s` as a sentinel, and mapping each offset to the
difference to the next; the sum of its values equals `s - min(header_offset)`
(in particular when the entries are contiguous); for `k = 0` the map is
empty. -/
theorem get_position_to_size_spec (offs : List Int) (s : Int) (hnd : offs.Nodup) :
    ((get_position_to_size offs s).map Prod.fst).length = offs.length
    ∧ ((get_position_to_size offs s).map Prod.fst).Nodup
    ∧ (∀ p ∈ get_position_to_size offs s, p.1 ∈ offs)
    ∧ (offs = [] → get_position_to_size offs s = [])
    ∧ (offs ≠ [] → ∃ mn, mn ∈ offs ∧ (∀ x ∈ offs, mn ≤ x)
        ∧ ((get_position_to_size offs s).map Prod.snd).sum = s - mn) := by
  by_cases h : offs = []
  · subst h
    simp [get_position_to_size]
  · have hlen : (offs.insertionSort (· ≤ ·)).length = offs.length :=
      List.length_insertionSort _ offs
    have hperm : List.Perm (offs.insertionSort (· ≤ ·)) offs := List.perm_insertionSort _ offs
    have hsortedp : List.Sorted (· ≤ ·) (offs.insertionSort (· ≤ ·)) :=
      List.sorted_insertionSort _ offs
    cases hsorted : offs.insertionSort (· ≤ ·) with
    | nil =>
      exfalso
      rw [hsorted] at hlen
      exact h (List.length_eq_zero.mp hlen.symm)
    | cons a rest =>
      have hkeys : (get_position_to_size offs s).map Prod.fst = a :: rest := by
        unfold get_position_to_size
        rw [if_neg h, hsorted]
        exact pts_keys rest s a
      have hmemkeys : ∀ x, x ∈ a :: rest → x ∈ offs := by
        intro x hx
        rw [← hsorted] at hx
        exact hperm.mem_iff.mp hx
      refine ⟨?_, ?_, ?_, fun habs => absurd habs h, ?_⟩
      · rw [hkeys, ← hsorted, hlen]
      · rw [hkeys, ← hsorted]
        exact hperm.nodup_iff.mpr hnd
      · intro p hp
        have : p.1 ∈ (get_position_to_size offs s).map Prod.fst :=
          List.mem_map_of_mem Prod.fst hp
        rw [hkeys] at this
        exact hmemkeys _ this
      · intro _
        refine ⟨a, hmemkeys a (List.mem_cons_self a rest), ?_, ?_⟩
        · intro x hx
          have hx2 : x ∈ a :: rest := by
            rw [← hsorted]
            exact hperm.mem_iff.mpr hx
          rw [hsorted] at hsortedp
          rcases List.mem_cons.mp hx2 with h1 | h2
          · omega
          · exact (List.sorted_cons.mp hsortedp).1 x h2
        · unfold get_position_to_size
          rw [if_neg h, hsorted]
          exact pts_sum rest s a

/-- Witness for C1: the directory with header offsets `[10, 0, 25]` and
central-directory start 40 yields a 3-key map (concretely
`{0 ↦ 10, 10 ↦ 15, 25 ↦ 15}`). -/
theorem get_position_to_size_spec_witness :
    ((get_position_to_size [10, 0, 25] 40).map Prod.fst).length = 3 :=
  (get_position_to_size_spec [10, 0, 25] 40 (by decide)).1

/-! ## C2 and C9 — RemoteIO.seek -/

theorem seek_fst_ok (pb : PartialBuffer) (off : Int) (whence : Nat) (pos : Int)
    (pb2 : PartialBuffer) (h : pb.seek off whence = (Except.ok pos, pb2)) :
    pos = pb2.position := by
  simp only [PartialBuffer.seek] at h
  split_ifs at h <;> simp only [Prod.mk.injEq] at h
  all_goals try exact Except.noConfusion h.1
  all_goals
    obtain ⟨h1, rfl⟩ := h
  all_goals
    injection h1 with h1
  all_goals
    exact h1.symm

/-- C2: for every RemoteIO with a current buffer (outside the bootstrap
path), whenever the delegated `PartialBuffer.seek` raises OutOfBound,
`RemoteIO.seek` does not propagate any error: it sets `seek_succeeded` to
false and returns `tell()`, i.e. the logical position already updated by the
failed seek; the fetch of a new buffer is deferred to the next read (the
result does not depend on the fetch function at all).  In the model the only
error a buffer seek produces is OutOfBound, so only that kind is caught. -/
theorem remoteIO_seek_oob (rio : RemoteIOModel)
    (fetch fetch2 : Int × Option Int → Bool → PartialBuffer)
    (off : Int) (whence : Nat) (pb : PartialBuffer) (e : Err) (pb2 : PartialBuffer)
    (hbuf : rio.buffer = some pb)
    (hnb : ¬ (whence = 2 ∧ rio.file_size = none))
    (herr : pb.seek off whence = (Except.error e, pb2)) :
    rio.seek fetch off whence
      = (Except.ok pb2.tell, { rio with buffer := some pb2, seek_succeeded := false })
    ∧ rio.seek fetch off whence = rio.seek fetch2 off whence := by
  have hone : ∀ f : Int × Option Int → Bool → PartialBuffer,
      rio.seek f off whence
        = (Except.ok pb2.tell, { rio with buffer := some pb2, seek_succeeded := false }) := by
    intro f
    simp only [RemoteIOModel.seek]
    rw [if_neg hnb, hbuf]
    dsimp only
    rw [herr]
  exact ⟨hone fetch, (hone fetch).trans (hone fetch2).symm⟩

/-- Witness for C2: a concrete out-of-window seek is recovered, returning
the updated position 30 without error. -/
theorem remoteIO_seek_oob_witness :
    RemoteIOModel.seek
      { buffer := some { data := [0,0,0,0,1,1,2,2,2,3,3], offset := 10, size := 11,
                         position := 10, cursor := 0, stream := false },
        file_size := some 21, seek_succeeded := true,
        member_position_to_size := none, last_member_pos := none,
        initial_buffer_size := 65536 }
      (fun _ _ => { data := [], offset := 0, size := 0, position := 0,
                    cursor := 0, stream := false }) 30 0
    = (Except.ok 30,
       { buffer := some { data := [0,0,0,0,1,1,2,2,2,3,3], offset := 10, size := 11,
                          position := 30, cursor := 0, stream := false },
         file_size := some 21, seek_succeeded := false,
         member_position_to_size := none, last_member_pos := none,
         initial_buffer_size := 65536 }) :=
  (remoteIO_seek_oob _ _
    (fun _ _ => { data := [], offset := 0, size := 0, position := 0,
                  cursor := 0, stream := false })
    30 0
    { data := [0,0,0,0,1,1,2,2,2,3,3], offset := 10, size := 11,
      position := 10, cursor := 0, stream := false }
    (Err.outOfBound "Position out of buffer bound")
    { data := [0,0,0,0,1,1,2,2,2,3,3], offset := 10, size := 11,
      position := 30, cursor := 0, stream := false }
    rfl (by decide) rfl).1

/-- C9: for every RemoteIO whose `file_size` is unknown, the first seek with
whence=2 fetches the suffix range `(-initial_buffer_size, None)` as a
non-stream PartialBuffer, sets `file_size` to the returned buffer's offset
plus its size (the buffer being freshly constructed, `len + tell` equals
`offset + size`), and only then delegates the seek to that buffer — the
resulting buffer and return value are those of the fetched buffer's own
seek; seeks with whence=2 on a state with known `file_size` never consult
the fetch function. -/
theorem remoteIO_seek_bootstrap (rio : RemoteIOModel)
    (fetch : Int × Option Int → Bool → PartialBuffer) (off : Int)
    (hfs : rio.file_size = none)
    (hfresh : (fetch (-rio.initial_buffer_size, none) false).position
              = (fetch (-rio.initial_buffer_size, none) false).offset) :
    ((rio.seek fetch off 2).2.file_size
        = some ((fetch (-rio.initial_buffer_size, none) false).offset
                + (fetch (-rio.initial_buffer_size, none) false).size))
    ∧ ((rio.seek fetch off 2).2.buffer
        = some (((fetch (-rio.initial_buffer_size, none) false).seek off 2).2))
    ∧ ((rio.seek fetch off 2).1
        = Except.ok (((fetch (-rio.initial_buffer_size, none) false).seek off 2).2.tell))
    ∧ (∀ (rio2 : RemoteIOModel) (f2 : Int × Option Int → Bool → PartialBuffer) (fs : Int),
        rio2.file_size = some fs → rio2.seek fetch off 2 = rio2.seek f2 off 2) := by
  have hnofetch : ∀ (rio2 : RemoteIOModel) (f2 : Int × Option Int → Bool → PartialBuffer)
      (fs : Int), rio2.file_size = some fs → rio2.seek fetch off 2 = rio2.seek f2 off 2 := by
    intro rio2 f2 fs hfs2
    simp only [RemoteIOModel.seek]
    rw [if_neg (by simp [hfs2]), if_neg (by simp [hfs2])]
  refine ⟨?_, ?_, ?_, hnofetch⟩ <;>
  · simp only [RemoteIOModel.seek]
    rw [if_pos (by simp [hfs])]
    dsimp only
    cases hres : (fetch (-rio.initial_buffer_size, none) false).seek off 2 with
    | mk r pbf =>
      cases r with
      | ok pos =>
        have hp := seek_fst_ok _ off 2 pos pbf hres
        subst hp
        simp [PartialBuffer.tell, hfresh]
        try omega
      | error e =>
        simp [PartialBuffer.tell, hfresh]
        try omega

/-- Witness for C9: with a constant fetch function returning a fresh
200-byte window at offset 0, a bootstrap `seek(0, 2)` sets the file size to
200. -/
theorem remoteIO_seek_bootstrap_witness :
    (RemoteIOModel.seek
      { buffer := none, file_size := none, seek_succeeded := false,
        member_position_to_size := none, last_member_pos := none,
        initial_buffer_size := 65536 }
      (fun _ _ => { data := List.replicate 200 7, offset := 0, size := 200,
                    position := 0, cursor := 0, stream := false }) 0 2).2.file_size
      = some (0 + 200) :=
  (remoteIO_seek_bootstrap
    { buffer := none, file_size := none, seek_succeeded := false,
      member_position_to_size := none, last_member_pos := none,
      initial_buffer_size := 65536 }
    (fun _ _ => { data := List.replicate 200 7, offset := 0, size := 200,
                  position := 0, cursor := 0, stream := false }) 0
    rfl rfl).1

/-! ## C3 and C4 — RemoteIO.read after a failed seek -/

/-- A trivial fetch function for concrete states: returns an empty window
starting at the requested position. -/
def zeroFetch : Int × Option Int → Bool → PartialBuffer :=
  fun dr stream =>
    { data := [], offset := dr.1, size := 0, position := dr.1, cursor := 0, stream := stream }

/-- Demo state: a failed seek landed at position 100, the start of a member
of the installed map. -/
def rioMemberDemo : RemoteIOModel :=
  { buffer := some { data := [], offset := 100, size := 0, position := 100,
                     cursor := 0, stream := true },
    file_size := some 1000, seek_succeeded := false,
    member_position_to_size := some [(100, 50), (200, 30)], last_member_pos := none,
    initial_buffer_size := 65536 }

/-- C3 (amended): for every `RemoteIO.read` starting at logical position `p`
after an out-of-window seek (`seek_succeeded` false): if the
position-to-size map is not installed, it fetches exactly the requested size
as range `(p, p+size-1)` with stream=false; if the map is installed and `p`
is a key, it fetches range `(p, p+map[p]-1)` with stream=true and records
`last_member_pos = p`; if the map is installed, `p` is not a key, a prior
member was started at a NONZERO offset (`last_member_pos` set and ≠ 0 — the
source's truthiness test `if self._last_member_pos` treats a member at
offset 0 as unset, see the counterexample), `last_member_pos < p`, and `p`
lies inside that member's extent, it fetches
`fetch_size = map[last_member_pos] - (p - last_member_pos)` bytes as range
`(p, p+fetch_size-1)` with stream=true. -/
theorem remoteIO_read_fetch (rio : RemoteIOModel)
    (fetch : Int × Option Int → Bool → PartialBuffer) (size : Int) (pb : PartialBuffer)
    (hbuf : rio.buffer = some pb) (hseek : rio.seek_succeeded = false) (hsz : size ≠ 0) :
    (rio.member_position_to_size = none →
      rio.read fetch size
        = (Except.ok ((fetch (pb.position, some (pb.position + size - 1)) false).read size).1,
           { rio with
             seek_succeeded := true,
             buffer := some ((fetch (pb.position, some (pb.position + size - 1)) false).read
               size).2,
             last_member_pos := rio.last_member_pos }))
    ∧ (∀ (m : List (Int × Int)) (s : Int),
        rio.member_position_to_size = some m → m.lookup pb.position = some s →
        rio.read fetch size
          = (Except.ok ((fetch (pb.position, some (pb.position + s - 1)) true).read size).1,
             { rio with
               seek_succeeded := true,
               buffer := some ((fetch (pb.position, some (pb.position + s - 1)) true).read
                 size).2,
               last_member_pos := some pb.position }))
    ∧ (∀ (m : List (Int × Int)) (lmp ls : Int),
        rio.member_position_to_size = some m → m.lookup pb.position = none →
        rio.last_member_pos = some lmp → lmp ≠ 0 → lmp < pb.position →
        m.lookup lmp = some ls → pb.position < lmp + ls →
        rio.read fetch size
          = (Except.ok ((fetch (pb.position,
                some (pb.position + (ls - (pb.position - lmp)) - 1)) true).read size).1,
             { rio with
               seek_succeeded := true,
               buffer := some ((fetch (pb.position,
                 some (pb.position + (ls - (pb.position - lmp)) - 1)) true).read size).2,
               last_member_pos := some lmp })) := by
  refine ⟨?_, ?_, ?_⟩
  · intro hm
    simp only [RemoteIOModel.read, hbuf, PartialBuffer.tell, hseek, hm]
    rw [if_neg hsz]
    rfl
  · intro m s hm hlk
    simp only [RemoteIOModel.read, hbuf, PartialBuffer.tell, hseek, hm, hlk]
    rw [if_neg hsz]
    rfl
  · intro m lmp ls hm hnk hl hne hlt hlk hext
    simp only [RemoteIOModel.read, hbuf, PartialBuffer.tell, hseek, hm, hnk, hl]
    rw [if_neg hsz]
    dsimp only
    rw [if_pos (⟨hne, hlt⟩ : lmp ≠ 0 ∧ lmp < pb.position), hlk]
    rfl

/-- Witness for C3 (amended): at position 100, a key of the installed map
`{100 ↦ 50, 200 ↦ 30}`, the read fetches `(100, 149)` in stream mode and
records `last_member_pos = 100`. -/
theorem remoteIO_read_fetch_witness :
    rioMemberDemo.read zeroFetch 5
      = (Except.ok ((zeroFetch (100, some (100 + 50 - 1)) true).read 5).1,
         { rioMemberDemo with
           seek_succeeded := true,
           buffer := some ((zeroFetch (100, some (100 + 50 - 1)) true).read 5).2,
           last_member_pos := some 100 }) :=
  (remoteIO_read_fetch rioMemberDemo zeroFetch 5 _ rfl rfl (by decide)).2.1
    [(100, 50), (200, 30)] 50 rfl rfl

/-- Counterexample for C3 as stated: the map `{0 ↦ 100}` is installed, the
prior member started at offset 0 (`last_member_pos = 0`), and the read
position 50 is not a key but lies inside that member's extent `[0, 100)`;
the claim says the read fetches `(50, 50 + (100 - 50) - 1)`, but the code's
truthiness test `if self._last_member_pos` treats 0 as unset, so the read
instead fails with OutOfBound. -/
theorem remoteIO_read_fetch_counterexample :
    (RemoteIOModel.read
      { buffer := some { data := [], offset := 50, size := 0, position := 50,
                         cursor := 0, stream := true },
        file_size := some 1000, seek_succeeded := false,
        member_position_to_size := some [(0, 100)], last_member_pos := some 0,
        initial_buffer_size := 65536 }
      zeroFetch 4).1
    = Except.error (Err.outOfBound "Attempt to seek outside boundary of current zip member") := by
  rfl

/-- Demo state for C4: position 30 is not a key of the map `{100 ↦ 50}` and
no member was started. -/
def rioNoLast : RemoteIOModel :=
  { buffer := some { data := [], offset := 30, size := 0, position := 30,
                     cursor := 0, stream := true },
    file_size := some 1000, seek_succeeded := false,
    member_position_to_size := some [(100, 50)], last_member_pos := none,
    initial_buffer_size := 65536 }

/-- C4 (amended): with the position-to-size map installed and the read
position `p` (after an out-of-window seek) not a key of the map, the read
fails with OutOfBound ("attempt to seek outside boundary of current zip
member") — leaving the state unchanged, so the error propagates to the
caller — IF AND ONLY IF no prior member was started at a nonzero offset
below `p` (`last_member_pos` unset, zero, or `≥ p`).  In particular, when
`last_member_pos < p` but `p` lies at or beyond the member's end, the code
does NOT fail: it computes a zero or negative fetch size and issues that
fetch (no extent check — see the counterexample). -/
theorem remoteIO_read_oob (rio : RemoteIOModel)
    (fetch : Int × Option Int → Bool → PartialBuffer) (size : Int) (pb : PartialBuffer)
    (m : List (Int × Int))
    (hbuf : rio.buffer = some pb) (hseek : rio.seek_succeeded = false) (hsz : size ≠ 0)
    (hm : rio.member_position_to_size = some m)
    (hnk : m.lookup pb.position = none) :
    ((rio.read fetch size).1
        = Except.error (Err.outOfBound "Attempt to seek outside boundary of current zip member")
      ↔ ¬ (∃ lmp, rio.last_member_pos = some lmp ∧ lmp ≠ 0 ∧ lmp < pb.position))
    ∧ ((rio.read fetch size).1
        = Except.error (Err.outOfBound "Attempt to seek outside boundary of current zip member")
      → (rio.read fetch size).2 = rio) := by
  cases hl : rio.last_member_pos with
  | none =>
    simp only [RemoteIOModel.read, hbuf, PartialBuffer.tell, hseek, hm, hnk, hl]
    rw [if_neg hsz]
    dsimp only
    refine ⟨⟨fun _ => by simp, fun _ => rfl⟩, fun _ => rfl⟩
  | some lmp =>
    by_cases hc : lmp ≠ 0 ∧ lmp < pb.position
    · cases hlk : m.lookup lmp with
      | none =>
        simp only [RemoteIOModel.read, hbuf, PartialBuffer.tell, hseek, hm, hnk, hl]
        rw [if_neg hsz]
        dsimp only
        rw [if_pos hc, hlk]
        refine ⟨⟨fun habs => by simp at habs, fun hno => absurd ⟨lmp, rfl, hc⟩ hno⟩,
          fun habs => by simp at habs⟩
      | some s0 =>
        simp only [RemoteIOModel.read, hbuf, PartialBuffer.tell, hseek, hm, hnk, hl]
        rw [if_neg hsz]
        dsimp only
        rw [if_pos hc, hlk]
        refine ⟨⟨fun habs => by simp at habs, fun hno => absurd ⟨lmp, rfl, hc⟩ hno⟩,
          fun habs => by simp at habs⟩
    · simp only [RemoteIOModel.read, hbuf, PartialBuffer.tell, hseek, hm, hnk, hl]
      rw [if_neg hsz]
      dsimp only
      rw [if_neg hc]
      refine ⟨⟨fun _ => ?_, fun _ => rfl⟩, fun _ => rfl⟩
      rintro ⟨l, hl2, hcond⟩
      rw [Option.some.injEq] at hl2
      exact hc (hl2 ▸ hcond)

/-- Witness for C4 (amended): at position 30, not a key of `{100 ↦ 50}` and
with no member started, the read fails with OutOfBound and the state is
unchanged. -/
theorem remoteIO_read_oob_witness :
    (rioNoLast.read zeroFetch 4).1
      = Except.error (Err.outOfBound "Attempt to seek outside boundary of current zip member") :=
  ((remoteIO_read_oob rioNoLast zeroFetch 4
      { data := [], offset := 30, size := 0, position := 30, cursor := 0, stream := true }
      [(100, 50)] rfl rfl (by decide) rfl rfl).1).mpr (by simp [rioNoLast])

/-- Counterexample for C4 as stated: the map is `{10 ↦ 5}`, the last member
started at 10, and the read position 20 is neither a key nor inside the
extent `[10, 15)`; the claim says the read must fail with OutOfBound, but
the code computes `fetch_size = 5 - (20 - 10) = -5` and issues the fetch
`(20, 14)`, returning successfully. -/
theorem remoteIO_read_oob_counterexample :
    (RemoteIOModel.read
      { buffer := some { data := [], offset := 20, size := 0, position := 20,
                         cursor := 0, stream := true },
        file_size := some 1000, seek_succeeded := false,
        member_position_to_size := some [(10, 5)], last_member_pos := some 10,
        initial_buffer_size := 65536 }
      zeroFetch 4).1 = Except.ok [] := by
  rfl

/-! ## C10 — suffix-range fallback in RemoteFetcher.fetch -/

/-- C10: for every RemoteFetcher constructed with
`support_suffix_range = false`, a fetch of a suffix range `(-n, None)`
(`n > 0`) first obtains the total file size `F` via the HEAD request's
Content-Length and rewrites the range to `(max(0, F-n), F-1)` before issuing
the GET — the fetch behaves exactly like a fetch of the rewritten range —
so when the server honours the request the returned PartialBuffer has offset
`max(0, F-n)`; if the HEAD response lacks Content-Length the fetch fails
with the generic remote-zip error (not RangeNotSupported, not OutOfBound). -/
theorem fetch_suffix_fallback
    (server : Int × Option Int → Except Err (Int × Int × List Nat))
    (n : Int) (stream : Bool) (hn : 0 < n) :
    (∀ F : Int,
      RemoteFetcher.fetch false (some F) server (-n, none) stream
        = RemoteFetcher.fetch false (some F) server (max 0 (F - n), some (F - 1)) stream)
    ∧ (∀ (F mx : Int) (body : List Nat),
        server (max 0 (F - n), some (F - 1)) = Except.ok (max 0 (F - n), mx, body) →
        ∃ pb : PartialBuffer,
          RemoteFetcher.fetch false (some F) server (-n, none) stream = Except.ok pb
          ∧ pb.offset = max 0 (F - n))
    ∧ RemoteFetcher.fetch false none server (-n, none) stream
        = Except.error (Err.remoteZipError "Cannot get file size: Content-Length header missing") := by
  have hone : ∀ F : Int,
      RemoteFetcher.fetch false (some F) server (-n, none) stream
        = RemoteFetcher.fetch false (some F) server (max 0 (F - n), some (F - 1)) stream := by
    intro F
    simp only [RemoteFetcher.fetch, get_file_size]
    rw [if_pos (by constructor <;> simp <;> omega)]
    rw [if_neg (by simp)]
    have harg : F + -n = F - n := by ring
    rw [harg]
  refine ⟨hone, ?_, ?_⟩
  · intro F mx body hsrv
    rw [hone F]
    simp only [RemoteFetcher.fetch]
    rw [if_neg (by simp)]
    dsimp only
    rw [hsrv]
    exact ⟨_, rfl, rfl⟩
  · simp only [RemoteFetcher.fetch, get_file_size]
    rw [if_pos (by constructor <;> simp <;> omega)]

/-- Witness for C10: with Content-Length 1000 and a server echoing the
requested bounds, `fetch((-100, None))` returns a buffer with offset
`max 0 (1000 - 100) = 900` (spec scenario 6), and with the Content-Length
header missing the fetch fails with the generic remote-zip error. -/
theorem fetch_suffix_fallback_witness :
    (∃ pb : PartialBuffer,
      RemoteFetcher.fetch false (some 1000)
          (fun dr => Except.ok (dr.1, dr.2.getD 0, [])) (-100, none) false = Except.ok pb
      ∧ pb.offset = max 0 (1000 - 100))
    ∧ RemoteFetcher.fetch false none
        (fun dr => Except.ok (dr.1, dr.2.getD 0, [])) (-100, none) false
      = Except.error (Err.remoteZipError "Cannot get file size: Content-Length header missing") :=
  ⟨(fetch_suffix_fallback (fun dr => Except.ok (dr.1, dr.2.getD 0, [])) 100 false
      (by decide)).2.1 1000 999 [] rfl,
   (fetch_suffix_fallback (fun dr => Except.ok (dr.1, dr.2.getD 0, [])) 100 false
      (by decide)).2.2⟩
